import Mathlib

/-!
Shallow embedding of the NM Bill Tracker scraper (`scraper.py`).

The program extracts fields from legislative bill pages with a fixed set of
Python regular expressions, scans bill numbers per chamber with an
early-stop loop, and writes the collected records to a CSV file.

Pages are modelled as `List Char`.  Each regular expression used by the
source is embedded as a dedicated matching function whose behaviour equals
the Python pattern's (leftmost match; greedy `[^x]*`/`[^x]+` with
backtracking, which is deterministic for these patterns except in the
table pattern, where explicit backtracking is implemented; lazy `(.*?)`
before a literal = shortest match, i.e. up to the first occurrence of the
literal).
-/

namespace BillTracker

set_option maxRecDepth 100000

/-- Characters of a string literal, for readable page constants. -/
def chars (s : String) : List Char := s.data

/-- Python `str.lower()` restricted to the ASCII range (the marker being
searched, "not found", is ASCII). -/
def lowerChars (s : List Char) : List Char := s.map Char.toLower

/-- Whitespace characters stripped by Python `str.strip()` (ASCII subset). -/
def isPySpace (c : Char) : Bool :=
  c == ' ' || c == '\t' || c == '\n' || c == '\r' || c == '\x0b' || c == '\x0c'

/-- Python `str.strip()`: drop whitespace from both ends. -/
def pyStrip (s : List Char) : List Char :=
  ((s.dropWhile isPySpace).reverse.dropWhile isPySpace).reverse

/-- Substring containment, as in Python `lit in s`. -/
def containsSub (lit : List Char) : List Char → Bool
  | [] => lit.isPrefixOf ([] : List Char)
  | c :: r => lit.isPrefixOf (c :: r) || containsSub lit r

/-- Match `[^t]*t`: skip characters up to (and including) the first
occurrence of `t`; `none` when `t` does not occur.  This is exactly what
the greedy regex fragment `[^t]*t` matches, since the starred class cannot
contain `t` itself. -/
def skipTo (t : Char) : List Char → Option (List Char)
  | [] => none
  | c :: r => if c = t then some r else skipTo t r

/-- Match the lazy fragment `(.*?)lit` (with DOTALL): capture up to the
first occurrence of `lit` and return (capture, remainder after `lit`). -/
def splitAtFirst (lit : List Char) : List Char → Option (List Char × List Char)
  | [] => if lit = ([] : List Char) then some ([], []) else none
  | c :: r =>
    if lit.isPrefixOf (c :: r) then some ([], (c :: r).drop lit.length)
    else
      match splitAtFirst lit r with
      | some (a, b) => some (c :: a, b)
      | none => none

/-- Leftmost-match search, as in `re.search`: try the anchored matcher
`attempt` at every position left to right and return the first success. -/
def reSearch (attempt : List Char → Option α) : List Char → Option α
  | [] => attempt ([] : List Char)
  | c :: r =>
    match attempt (c :: r) with
    | some v => some v
    | none => reSearch attempt r

/-- Greedy `[^x]*lit` with backtracking: `p` is the number of characters
tentatively consumed by the star (start from the length of the maximal
run of non-`x` characters and decrease).  At each candidate split, `lit`
must match literally and then the continuation `k` runs on the remainder;
the longest successful split wins, as in a backtracking regex engine. -/
def tryStar (lit : List Char) (k : List Char → Option α) (s : List Char) : Nat → Option α
  | 0 => if lit.isPrefixOf s then k (s.drop lit.length) else none
  | p + 1 =>
    match (if lit.isPrefixOf (s.drop (p + 1)) then k (s.drop (p + 1 + lit.length)) else none) with
    | some v => some v
    | none => tryStar lit k s p

/-- Repeated leftmost search, as in `re.findall`: the anchored matcher
returns a captured value and the remainder after the whole match; on
failure the scan advances one character.  `fuel` bounds the number of
steps; every pattern embedded here consumes at least one character per
match, so `length + 1` fuel (as supplied by `findAll`) is never
exhausted. -/
def findAllAux (attempt : List Char → Option (β × List Char)) : Nat → List Char → List β
  | 0, _ => []
  | fuel + 1, s =>
    match attempt s with
    | some (b, r) => b :: findAllAux attempt fuel r
    | none =>
      match s with
      | [] => []
      | _ :: r => findAllAux attempt fuel r

/-- Run `attempt` repeatedly over `s`, as `re.findall` does. -/
def findAll (attempt : List Char → Option (β × List Char)) (s : List Char) : List β :=
  findAllAux attempt (s.length + 1) s

/-- Auxiliary for `stripTags` with explicit fuel (each step consumes at
least one character, so `length` fuel suffices). -/
def stripTagsAux : Nat → List Char → List Char
  | 0, s => s
  | _ + 1, [] => []
  | fuel + 1, c :: r =>
    if c = '<' then
      let run := r.takeWhile (fun d => d != '>')
      if run ≠ ([] : List Char) ∧ r.drop run.length ≠ ([] : List Char) then
        stripTagsAux fuel (r.drop (run.length + 1))
      else c :: stripTagsAux fuel r
    else c :: stripTagsAux fuel r

/-- Python `re.sub(r'<[^>]+>', '', s)`: delete every tag-shaped span.  A
`<` is the start of a match exactly when a nonempty run of non-`>`
characters followed by `>` comes after it; otherwise the character is kept
and scanning resumes at the next position. -/
def stripTags (s : List Char) : List Char := stripTagsAux s.length s

/-! ### The literal fragments of the source's patterns -/

/-- Literal head of the bill-id pattern (scraper.py line 35). -/
def litBillID : List Char := chars "id=\"MainContent_formViewLegislation_lblBillID\""

/-- Literal head of the title pattern (line 39). -/
def litTitle : List Char := chars "id=\"MainContent_formViewLegislation_lblTitle\""

/-- Literal head of the primary-sponsor pattern (line 49). -/
def litSponsor : List Char := chars "id=\"MainContent_formViewLegislation_linkSponsor\""

/-- Literal head of the co-sponsor pattern for slot `i` (line 55). -/
def litSponsorN (i : Nat) : List Char :=
  chars ("id=\"MainContent_formViewLegislation_linkSponsor" ++ Nat.repr i ++ "\"")

/-- Literal head of the location pattern (line 66). -/
def litLocation : List Char := chars "id=\"MainContent_formViewLegislation_linkLocation\""

/-- Closing literal of span-captures. -/
def closeSpan : List Char := chars "</span>"

/-- Closing literal of anchor-captures. -/
def closeA : List Char := chars "</a>"

/-- Optional break literal in the co-sponsor pattern. -/
def litBr : List Char := chars "<br/>"

/-- Marker rejected by the extractor (line 31). -/
def notFoundLit : List Char := chars "not found"

/-! ### Anchored matchers for the source's patterns -/

/-- Anchored match of `LIT[^>]*>([^<]+)CLOSE` at the head of `s`,
returning the capture.  The fragments are deterministic: `[^>]*>` skips to
the first `>`; the greedy capture `[^<]+` runs to the first `<`, where
`CLOSE` (which starts with `<`) must follow — shorter captures would place
a non-`<` character under `CLOSE`'s first character, so backtracking
cannot succeed where this fails. -/
def matchSpanAt (lit close : List Char) (s : List Char) : Option (List Char) :=
  if lit.isPrefixOf s then
    match skipTo '>' (s.drop lit.length) with
    | none => none
    | some r2 =>
      let cap := r2.takeWhile (fun d => d != '<')
      if cap = ([] : List Char) then none
      else if close.isPrefixOf (r2.drop cap.length) then some cap else none
  else none

/-- Anchored match of the co-sponsor pattern
`LIT[^>]*>(?:<br/>)?([^<]+)</a>` at the head of `s`.  When `<br/>` is
present it must be taken: declining it leaves the capture `[^<]+` facing
`<`, which fails, so the optional group is deterministic here. -/
def matchSponsorSlotAt (lit : List Char) (s : List Char) : Option (List Char) :=
  if lit.isPrefixOf s then
    match skipTo '>' (s.drop lit.length) with
    | none => none
    | some r2 =>
      let r3 := if litBr.isPrefixOf r2 then r2.drop litBr.length else r2
      let cap := r3.takeWhile (fun d => d != '<')
      if cap = ([] : List Char) then none
      else if closeA.isPrefixOf (r3.drop cap.length) then some cap else none
  else none

/-- Anchored match of the actions-table pattern (line 70)
`<table[^>]*class="[^"]*table[^"]*"[^>]*>(.*?)</table>` at the head of
`s`, returning the capture and the remainder after `</table>`.  The two
greedy star-then-literal fragments backtrack via `tryStar`; the trailing
`[^"]*"` and `[^>]*>` fragments are deterministic skips, and the lazy
capture runs to the first `</table>`. -/
def matchTableAt (s : List Char) : Option (List Char × List Char) :=
  if (chars "<table").isPrefixOf s then
    let s1 := s.drop 6
    tryStar (chars "class=\"")
      (fun s2 =>
        tryStar (chars "table")
          (fun s3 =>
            match skipTo '"' s3 with
            | none => none
            | some s4 =>
              match skipTo '>' s4 with
              | none => none
              | some s5 => splitAtFirst (chars "</table>") s5)
          s2 ((s2.takeWhile (fun d => d != '"')).length))
      s1 ((s1.takeWhile (fun d => d != '>')).length)
  else none

/-- Anchored match of the row pattern `<tr[^>]*>(.*?)</tr>` (line 80). -/
def matchTrAt (s : List Char) : Option (List Char × List Char) :=
  if (chars "<tr").isPrefixOf s then
    match skipTo '>' (s.drop 3) with
    | none => none
    | some r => splitAtFirst (chars "</tr>") r
  else none

/-- Anchored match of the cell pattern `<td[^>]*>(.*?)</td>` (line 85). -/
def matchTdAt (s : List Char) : Option (List Char × List Char) :=
  if (chars "<td").isPrefixOf s then
    match skipTo '>' (s.drop 3) with
    | none => none
    | some r => splitAtFirst (chars "</td>") r
  else none

/-! ### Field extraction (`parse_bill_html`, lines 25-102) -/

/-- First match of a span-style pattern anywhere in the page. -/
def searchCap (lit close : List Char) (s : List Char) : Option (List Char) :=
  reSearch (matchSpanAt lit close) s

/-- Python `m.group(1).strip() if m else ""`. -/
def fieldOr (o : Option (List Char)) : List Char :=
  match o with
  | some c => pyStrip c
  | none => []

/-- The `bill_id` variable of `parse_bill_html` (lines 35-36). -/
def billIdOf (s : List Char) : List Char := fieldOr (searchCap litBillID closeSpan s)

/-- The `title` variable of `parse_bill_html` (lines 39-40). -/
def titleOf (s : List Char) : List Char := fieldOr (searchCap litTitle closeSpan s)

/-- The `current_location` variable of `parse_bill_html` (lines 66-67). -/
def locationOf (s : List Char) : List Char := fieldOr (searchCap litLocation closeA s)

/-- Search for the co-sponsor pattern of slot `i` anywhere in the page
(the `re.search` of line 56). -/
def searchSlot (i : Nat) (s : List Char) : Option (List Char) :=
  reSearch (matchSponsorSlotAt (litSponsorN i)) s

/-- Search for the primary-sponsor pattern (line 49). -/
def searchPrimary (s : List Char) : Option (List Char) :=
  reSearch (matchSpanAt litSponsor closeA) s

/-- The co-sponsor probing loop `for i in range(2, 20)` (lines 54-60):
`fuel` counts the remaining loop iterations (18 at slot 2); the loop stops
at the first slot whose pattern does not match anywhere in the page. -/
def coSponsorsAux (s : List Char) : Nat → Nat → List (List Char)
  | 0, _ => []
  | fuel + 1, i =>
    match searchSlot i s with
    | some cap => pyStrip cap :: coSponsorsAux s fuel (i + 1)
    | none => []

/-- Co-sponsors collected by the slot-probing loop, slots 2 through 19. -/
def coSponsors (s : List Char) : List (List Char) := coSponsorsAux s 18 2

/-- The `sponsors` list of `parse_bill_html` (lines 47-60): the primary
sponsor, if its pattern matches, followed by the probed co-sponsors. -/
def sponsorsList (s : List Char) : List (List Char) :=
  (match searchPrimary s with
   | some cap => [pyStrip cap]
   | none => []) ++ coSponsors s

/-- Python `"; ".join(sponsors) if sponsors else ""` (line 63). -/
def joinSemicolon (l : List (List Char)) : List Char :=
  if l = ([] : List (List Char)) then [] else List.intercalate (chars "; ") l

/-- Cell cleanup (line 89): delete tags, then strip. -/
def cleanCell (c : List Char) : List Char := pyStrip (stripTags c)

/-- One iteration of the actions-table loop (lines 78-93), carrying the
pair `(last_date, status)`: a table with at most one row changes nothing;
otherwise the last row's first cell overwrites `last_date` and its second
cell (when present) overwrites `status`. -/
def lastActionStep (acc : List Char × List Char) (tableHtml : List Char) : List Char × List Char :=
  let rows := findAll matchTrAt tableHtml
  if rows.length > 1 then
    let cells := findAll matchTdAt ((rows.getLast?).getD [])
    match cells with
    | [] => acc
    | [d] => (cleanCell d, acc.2)
    | d :: st :: _ => (cleanCell d, cleanCell st)
  else acc

/-- The `last_date`/`status` pair after the loop over all matching tables
(lines 69-93), starting from empty strings. -/
def lastAction (s : List Char) : List Char × List Char :=
  (findAll matchTableAt s).foldl lastActionStep ([], [])

/-! ### Synthetic pages used to exercise the extractor -/

/-- Span element carrying an id, as the target site emits it. -/
def spanEl (idName content : String) : String :=
  "<span id=\"" ++ idName ++ "\">" ++ content ++ "</span>"

/-- Anchor element carrying an id. -/
def aEl (idName content : String) : String :=
  "<a id=\"" ++ idName ++ "\">" ++ content ++ "</a>"

/-- Sponsor name used in slot `i` of the synthetic pages. -/
def spName (i : Nat) : String := "Name" ++ Nat.repr i

/-- Sponsor anchor for slot `i`: slot 1 is the primary sponsor element,
slots 2 and up carry the numeric suffix in their id. -/
def sponsorSlot (i : Nat) : String :=
  if i = 1 then aEl "MainContent_formViewLegislation_linkSponsor" (spName 1)
  else aEl ("MainContent_formViewLegislation_linkSponsor" ++ Nat.repr i) (spName i)

/-- Common head of the synthetic pages: bill id and title elements. -/
def pageHead : String :=
  spanEl "MainContent_formViewLegislation_lblBillID" "HB0001" ++
    spanEl "MainContent_formViewLegislation_lblTitle" "AN ACT" ++
    aEl "MainContent_formViewLegislation_linkLocation" "HJC"

/-- Page with a primary sponsor and co-sponsor slots 2..k, no gaps. -/
def noGapPage (k : Nat) : String :=
  pageHead ++ String.join (((List.range k).map (fun i => i + 1)).map sponsorSlot)

/-- Page with sponsor slots 1..k present except slot `j`. -/
def gapPage (j k : Nat) : String :=
  pageHead ++
    String.join ((((List.range k).map (fun i => i + 1)).filter (fun i => i ≠ j)).map sponsorSlot)

/-- Consecutive slot numbers `i, i+1, ..., i+n-1`. -/
def slotRange (i : Nat) : Nat → List Nat
  | 0 => []
  | n + 1 => i :: slotRange (i + 1) n

/-- Sponsor names expected from slots 1..k of the synthetic pages. -/
def expNames (k : Nat) : List (List Char) :=
  (slotRange 1 k).map (fun i => chars (spName i))

/-- Actions table with the class attribute the table pattern requires. -/
def actTable (rowsHtml : String) : String :=
  "<table class=\"table\">" ++ rowsHtml ++ "</table>"

/-- Action row with a date cell and a status cell. -/
def actRow2 (d st : String) : String :=
  "<tr><td>" ++ d ++ "</td><td>" ++ st ++ "</td></tr>"

/-- Action row with only a date cell. -/
def actRow1 (d : String) : String := "<tr><td>" ++ d ++ "</td></tr>"

/-- Header row of the actions tables. -/
def actHeaderRow : String := "<tr><th>Date</th><th>Action</th></tr>"

/-- Single actions table whose data rows are out of chronological order:
the document-last row carries the chronologically earlier date. -/
def pageOutOfOrder : String :=
  pageHead ++
    actTable (actHeaderRow ++ actRow2 "02/01/2026" "Passed House" ++ actRow2 "01/15/2026" "Introduced")

/-- Single actions table whose last row has a date cell but no status
cell. -/
def pageOneCellRow : String :=
  pageHead ++ actTable (actHeaderRow ++ actRow1 "03/01/2026")

/-- Two qualifying tables; the second's last row lacks the status cell. -/
def pageCarryOverStatus : String :=
  pageHead ++ actTable (actHeaderRow ++ actRow2 "01/01/2026" "Passed") ++
    actTable (actHeaderRow ++ actRow1 "02/02/2026")

/-- Two qualifying tables; the second's last row has no cells at all. -/
def pageCarryOverBoth : String :=
  pageHead ++ actTable (actHeaderRow ++ actRow2 "01/01/2026" "Passed") ++
    actTable (actHeaderRow ++ "<tr>no cells here</tr>")

/-- Page whose only matching table has a single row (with action data). -/
def pageSingleRowTable : String :=
  pageHead ++ actTable (actRow2 "01/01/2026" "Passed")

/-- Two qualifying tables, both complete: the later one must win. -/
def pageTwoFullTables : String :=
  pageHead ++ actTable (actHeaderRow ++ actRow2 "01/01/2026" "First") ++
    actTable (actHeaderRow ++ actRow2 "01/20/2026" "Second")

/-- Record produced by `parse_bill_html` (lines 95-102). -/
structure BillData where
  bill_id : List Char
  title : List Char
  sponsors : List Char
  status : List Char
  location : List Char
  last_date : List Char
deriving DecidableEq, Repr

/-- Embedding of `parse_bill_html` (lines 25-102).  Empty input and pages
carrying the case-insensitive "not found" marker are rejected, as is any
page whose stripped title capture is empty; otherwise all fields are
extracted independently, absent ones defaulting to the empty string. -/
def parse_bill_html (html : String) : Option BillData :=
  if html.data = ([] : List Char) then none
  else if containsSub notFoundLit (lowerChars html.data) then none
  else if titleOf html.data = ([] : List Char) then none
  else
    some
      { bill_id := billIdOf html.data
        title := titleOf html.data
        sponsors := joinSemicolon (sponsorsList html.data)
        status := (lastAction html.data).2
        location := locationOf html.data
        last_date := (lastAction html.data).1 }

/-! ### Page fetcher (`fetch_url`, lines 13-23) and `scrape_bill` (104-125) -/

/-- Outcome of the underlying HTTP transport (`urllib.request.urlopen`
plus `.read().decode('utf-8')`): either the decoded body, or any network,
timeout, or decoding exception, carried as a message. -/
inductive FetchOutcome where
  | success (body : String)
  | failure (message : String)

/-- Embedding of `fetch_url`: the whole request sits inside
`try/except Exception`, so every transport failure is logged and turned
into the no-content result `None`; a successful request returns the body.
Totality of this function is the embedded form of "never raises past this
boundary". -/
def fetch_url (transport : FetchOutcome) : Option String :=
  match transport with
  | .success body => some body
  | .failure _ => none

/-- Python `f"{n:04d}"`: decimal digits left-padded with zeros to width
four. -/
def pad4 (n : Nat) : String :=
  String.mk (List.replicate (4 - (Nat.repr n).length) '0') ++ Nat.repr n

/-- The fallback identifier `f"{chamber}B{bill_num:04d}"` (line 106). -/
def fmtBillId (chamber : String) (n : Nat) : String := chamber ++ "B" ++ pad4 n

/-- The request URL (line 107). -/
def urlFor (chamber : String) (n : Nat) (year : String) : String :=
  "https://www.nmlegis.gov/Legislation/Legislation?chamber=" ++ chamber ++
    "&legType=B&legNo=" ++ Nat.repr n ++ "&year=" ++ year

/-- Record appended to the result collection (lines 117-125), fields in
the construction order of the source's dict. -/
structure Row where
  billNumber : List Char
  title : List Char
  sponsors : List Char
  status : List Char
  location : List Char
  lastDate : List Char
  url : List Char
deriving DecidableEq, Repr

/-- Embedding of `scrape_bill` (lines 104-125), with the network modelled
by a `FetchOutcome`: a fetch failure or empty body is a miss, an invalid
page is a miss, and otherwise the parsed fields become a `Row`, the
official bill id falling back to the formatted one when empty. -/
def scrape_bill (chamber : String) (billNum : Nat) (sessionYear : String)
    (transport : FetchOutcome) : Option Row :=
  match fetch_url transport with
  | none => none
  | some html =>
    if html.data = ([] : List Char) then none
    else
      match parse_bill_html html with
      | none => none
      | some bd =>
        some
          { billNumber := if bd.bill_id = ([] : List Char)
              then (fmtBillId chamber billNum).data else bd.bill_id
            title := bd.title
            sponsors := bd.sponsors
            status := bd.status
            location := bd.location
            lastDate := bd.last_date
            url := (urlFor chamber billNum sessionYear).data }

/-! ### Driver loop (`main`, lines 142-158) -/

/-- One chamber's scan loop (lines 142-158), abstracted over which bill
numbers produce a valid record (`hit`), the number ceiling and the
consecutive-miss threshold (500 and 50 in the source).  State is
`(bill_num, consecutive_misses)`; the result is the list of hit positions
in scan order together with the final `bill_num` when the loop exits.
`fuel` bounds the iterations; `bill_num` grows by one per iteration, so
`ceiling + 1` fuel (as supplied by `scanChamber`) is never exhausted. -/
def scanAux (hit : Nat → Bool) (ceiling thresh : Nat) : Nat → Nat → Nat → List Nat × Nat
  | 0, n, _ => ([], n)
  | fuel + 1, n, m =>
    if n ≤ ceiling ∧ m < thresh then
      if hit n then
        ((scanAux hit ceiling thresh fuel (n + 1) 0).1.cons n,
          (scanAux hit ceiling thresh fuel (n + 1) 0).2)
      else scanAux hit ceiling thresh fuel (n + 1) (m + 1)
    else ([], n)

/-- Scan of one chamber starting at bill number 1 with no misses. -/
def scanChamber (hit : Nat → Bool) (ceiling thresh : Nat) : List Nat × Nat :=
  scanAux hit ceiling thresh (ceiling + 1) 1 0

/-- Hit pattern of the spec's early-stop scenario: hits exactly at
positions 1 and 2. -/
def hitTwo (n : Nat) : Bool := n == 1 || n == 2

/-! ### Result writer (`main`, lines 160-182), with a CSV reader model

The source writes with `csv.DictWriter` under the default dialect:
fields are joined with `,`, a field containing a comma, a quote or a line
break is wrapped in quotes with inner quotes doubled, and every row ends
with `\r\n`.  The reader below models `csv.reader` on such content; it is
used to state the round-trip properties. -/

/-- Characters that force quoting under `QUOTE_MINIMAL`. -/
def isCsvSpecial (c : Char) : Bool :=
  c == ',' || c == '"' || c == '\r' || c == '\n'

/-- Whether a field must be quoted. -/
def needsQuote (f : List Char) : Bool := f.any isCsvSpecial

/-- Double every quote character of a field body. -/
def escInner : List Char → List Char
  | [] => []
  | c :: r => if c = '"' then '"' :: '"' :: escInner r else c :: escInner r

/-- Serialize one field, quoting it exactly when required. -/
def escapeField (f : List Char) : List Char :=
  if needsQuote f then '"' :: (escInner f ++ ['"']) else f

/-- Serialize the fields of a row, comma-separated. -/
def joinComma : List (List Char) → List Char
  | [] => []
  | [f] => escapeField f
  | f :: fs => escapeField f ++ ',' :: joinComma fs

/-- Serialize one row, with the writer's `\r\n` terminator. -/
def writeRowChars (fs : List (List Char)) : List Char :=
  joinComma fs ++ ['\r', '\n']

/-- Serialize a sequence of rows. -/
def writeRows (rows : List (List (List Char))) : List Char :=
  rows.foldr (fun r acc => writeRowChars r ++ acc) []

/-- Reader states: inside an unquoted field (also the start of a field),
inside a quoted field, just after a quote inside a quoted field, and just
after a carriage return. -/
inductive CsvMode where
  | fld
  | quo
  | clo
  | cr

/-- CSV reader as a character-driven machine: `cur` is the field being
read, `row` the fields finished on the current line; finished rows are
emitted in order.  Inside quotes a doubled quote is a literal quote; a
bare `\r\n` or `\n` outside quotes ends the row. -/
def pRun : CsvMode → List Char → List Char → List (List Char) → List (List (List Char))
  | .fld, [], cur, row =>
    if cur = ([] : List Char) ∧ row = ([] : List (List Char)) then [] else [row ++ [cur]]
  | .fld, c :: r, cur, row =>
    if c = '"' ∧ cur = ([] : List Char) then pRun .quo r [] row
    else if c = ',' then pRun .fld r [] (row ++ [cur])
    else if c = '\r' then (row ++ [cur]) :: pRun .cr r [] []
    else if c = '\n' then (row ++ [cur]) :: pRun .fld r [] []
    else pRun .fld r (cur ++ [c]) row
  | .quo, [], cur, row => [row ++ [cur]]
  | .quo, c :: r, cur, row =>
    if c = '"' then pRun .clo r cur row else pRun .quo r (cur ++ [c]) row
  | .clo, [], cur, row => [row ++ [cur]]
  | .clo, c :: r, cur, row =>
    if c = '"' then pRun .quo r (cur ++ ['"']) row
    else if c = ',' then pRun .fld r [] (row ++ [cur])
    else if c = '\r' then (row ++ [cur]) :: pRun .cr r [] []
    else if c = '\n' then (row ++ [cur]) :: pRun .fld r [] []
    else pRun .fld r (cur ++ [c]) row
  | .cr, [], _, _ => []
  | .cr, c :: r, _, _ =>
    if c = '\n' then pRun .fld r [] []
    else if c = '"' then pRun .quo r [] []
    else if c = ',' then pRun .fld r [] [[]]
    else if c = '\r' then ([[]] : List (List Char)) :: pRun .cr r [] []
    else pRun .fld r [c] []

/-- Parse CSV content into its rows of fields. -/
def parseCSVChars (s : List Char) : List (List (List Char)) := pRun .fld s [] []

/-- The fields of a row in the output's column order. -/
def rowFields (r : Row) : List (List Char) :=
  [r.billNumber, r.title, r.sponsors, r.status, r.location, r.lastDate, r.url]

/-- Header labels: the keys of the first record's dict (lines 117-125),
in construction order, as `csv.DictWriter(f, fieldnames=bills[0].keys())`
emits them. -/
def headerFields : List (List Char) :=
  [chars "Bill Number", chars "Title", chars "Sponsors", chars "Status",
    chars "Current Location/Referral", chars "Last Action Date", chars "URL"]

/-- What the end of `main` (lines 160-182) does with the collection:
either a single file with the fixed name and the serialized rows, or a
"no results" status with no file. -/
inductive SaveOutcome where
  | written (filename : String) (content : List Char)
  | noResults
deriving DecidableEq

/-- Embedding of lines 160-182: an empty collection writes nothing and
surfaces the no-results status; otherwise one file named `bills.csv` is
written, a header row followed by one row per record in order. -/
def saveResults (bills : List Row) : SaveOutcome :=
  match bills with
  | [] => .noResults
  | b :: bs => .written "bills.csv" (writeRows (headerFields :: (b :: bs).map rowFields))

/-! ### Further synthetic pages -/

/-- Page carrying the site's not-found marker in mixed case, together
with a complete set of field elements. -/
def pageNotFound : String := pageHead ++ "<p>Bill Was Not Found</p>"

/-- Page whose title element captures only whitespace. -/
def pageWsTitle : String :=
  spanEl "MainContent_formViewLegislation_lblBillID" "HB0002" ++
    spanEl "MainContent_formViewLegislation_lblTitle" "   "

/-- Sample record with delimiter, quote and space characters in its
fields, for exercising the writer. -/
def sampleRow : Row :=
  { billNumber := chars "HB0001"
    title := chars "AN ACT, AMENDED"
    sponsors := chars "Name1; Name2"
    status := chars "Passed \"as amended\""
    location := chars "HJC"
    lastDate := chars "01/01/2026"
    url := chars "https://example.org/b" }

/-! ## Theorems -/

/-! ### CSV reader/writer round-trip lemmas -/

theorem pRun_fld_quote (r : List Char) (row : List (List Char)) :
    pRun .fld ('"' :: r) [] row = pRun .quo r [] row := by
  simp [pRun]

theorem pRun_fld_comma (r cur : List Char) (row : List (List Char)) :
    pRun .fld (',' :: r) cur row = pRun .fld r [] (row ++ [cur]) := by
  simp [pRun]

theorem pRun_fld_crlf (r cur : List Char) (row : List (List Char)) :
    pRun .fld ('\r' :: '\n' :: r) cur row = (row ++ [cur]) :: pRun .fld r [] [] := by
  simp [pRun]

theorem pRun_fld_other (c : Char) (r cur : List Char) (row : List (List Char))
    (h1 : ¬(c = '"' ∧ cur = ([] : List Char))) (h2 : c ≠ ',') (h3 : c ≠ '\r') (h4 : c ≠ '\n') :
    pRun .fld (c :: r) cur row = pRun .fld r (cur ++ [c]) row := by
  simp only [pRun]
  rw [if_neg h1, if_neg h2, if_neg h3, if_neg h4]

theorem pRun_quo_quote (r cur : List Char) (row : List (List Char)) :
    pRun .quo ('"' :: r) cur row = pRun .clo r cur row := by
  simp [pRun]

theorem pRun_quo_other (c : Char) (r cur : List Char) (row : List (List Char)) (h : c ≠ '"') :
    pRun .quo (c :: r) cur row = pRun .quo r (cur ++ [c]) row := by
  simp only [pRun]
  rw [if_neg h]

theorem pRun_clo_quote (r cur : List Char) (row : List (List Char)) :
    pRun .clo ('"' :: r) cur row = pRun .quo r (cur ++ ['"']) row := by
  simp [pRun]

theorem pRun_clo_comma (r cur : List Char) (row : List (List Char)) :
    pRun .clo (',' :: r) cur row = pRun .fld r [] (row ++ [cur]) := by
  simp [pRun]

theorem pRun_clo_crlf (r cur : List Char) (row : List (List Char)) :
    pRun .clo ('\r' :: '\n' :: r) cur row = (row ++ [cur]) :: pRun .fld r [] [] := by
  simp [pRun]

theorem escInner_cons_quote (f : List Char) :
    escInner ('"' :: f) = '"' :: '"' :: escInner f := by
  simp [escInner]

theorem escInner_cons_other (c : Char) (f : List Char) (h : c ≠ '"') :
    escInner (c :: f) = c :: escInner f := by
  simp [escInner, h]

/-- Running the reader inside quotes over an escaped field body followed
by the closing quote lands just after the closing quote with the original
body appended to the current field. -/
theorem pRun_quo_escInner (f : List Char) :
    ∀ (cur rest : List Char) (row : List (List Char)),
      pRun .quo (escInner f ++ '"' :: rest) cur row = pRun .clo rest (cur ++ f) row := by
  induction f with
  | nil =>
    intro cur rest row
    simp only [escInner, List.nil_append, List.append_nil]
    exact pRun_quo_quote rest cur row
  | cons c f ih =>
    intro cur rest row
    by_cases hc : c = '"'
    · subst hc
      rw [escInner_cons_quote, List.cons_append, List.cons_append,
        pRun_quo_quote, pRun_clo_quote, ih, List.append_assoc]
      rfl
    · rw [escInner_cons_other c f hc, List.cons_append,
        pRun_quo_other c _ _ _ hc, ih, List.append_assoc]
      rfl

/-- Running the reader over an unquoted (special-character-free) field
body appends it to the current field. -/
theorem pRun_fld_plain (f : List Char) :
    ∀ (cur rest : List Char) (row : List (List Char)), f.any isCsvSpecial = false →
      pRun .fld (f ++ rest) cur row = pRun .fld rest (cur ++ f) row := by
  induction f with
  | nil => intro cur rest row _; simp
  | cons c f ih =>
    intro cur rest row h
    rw [List.any_cons, Bool.or_eq_false_iff] at h
    obtain ⟨hc, hf⟩ := h
    simp only [isCsvSpecial, Bool.or_eq_false_iff, beq_eq_false_iff_ne, ne_eq] at hc
    obtain ⟨⟨⟨hc1, hc2⟩, hc3⟩, hc4⟩ := hc
    rw [List.cons_append, pRun_fld_other c _ _ _ (fun hh => hc2 hh.1) hc1 hc3 hc4,
      ih _ _ _ hf, List.append_assoc]
    rfl

/-- Reading a serialized field followed by a comma commits the field and
moves to the next one. -/
theorem pRun_field_comma (f : List Char) (rest : List Char) (row : List (List Char)) :
    pRun .fld (escapeField f ++ ',' :: rest) [] row = pRun .fld rest [] (row ++ [f]) := by
  by_cases hq : needsQuote f = true
  · simp only [escapeField, if_pos hq, List.cons_append, List.append_assoc, List.cons_append]
    rw [pRun_fld_quote, pRun_quo_escInner, List.nil_append, pRun_clo_comma]
    simp
  · have hq2 : f.any isCsvSpecial = false := by
      rcases Bool.eq_false_or_eq_true (f.any isCsvSpecial) with h | h
      · exact absurd h hq
      · exact h
    rw [escapeField, if_neg hq]
    rw [pRun_fld_plain f [] (',' :: rest) row hq2]
    simp only [List.nil_append]
    exact pRun_fld_comma rest f row

/-- Reading a serialized field followed by the row terminator commits the
field, emits the row and starts a fresh one. -/
theorem pRun_field_crlf (f : List Char) (rest : List Char) (row : List (List Char)) :
    pRun .fld (escapeField f ++ '\r' :: '\n' :: rest) [] row =
      (row ++ [f]) :: pRun .fld rest [] [] := by
  by_cases hq : needsQuote f = true
  · simp only [escapeField, if_pos hq, List.cons_append, List.append_assoc, List.cons_append]
    rw [pRun_fld_quote, pRun_quo_escInner, List.nil_append, pRun_clo_crlf]
    simp
  · have hq2 : f.any isCsvSpecial = false := by
      rcases Bool.eq_false_or_eq_true (f.any isCsvSpecial) with h | h
      · exact absurd h hq
      · exact h
    rw [escapeField, if_neg hq]
    rw [pRun_fld_plain f [] ('\r' :: '\n' :: rest) row hq2]
    simp only [List.nil_append]
    exact pRun_fld_crlf rest f row

/-- Reading one serialized row emits exactly its fields and continues
after the terminator. -/
theorem pRun_row (fs : List (List Char)) :
    ∀ (rest : List Char) (row : List (List Char)), fs ≠ [] →
      pRun .fld (joinComma fs ++ '\r' :: '\n' :: rest) [] row =
        (row ++ fs) :: pRun .fld rest [] [] := by
  induction fs with
  | nil => intro _ _ h; exact absurd rfl h
  | cons f fs ih =>
    intro rest row _
    cases fs with
    | nil => exact pRun_field_crlf f rest row
    | cons f2 fs2 =>
      have hjc : joinComma (f :: f2 :: fs2) = escapeField f ++ ',' :: joinComma (f2 :: fs2) := rfl
      rw [hjc, List.append_assoc, List.cons_append, pRun_field_comma,
        ih rest (row ++ [f]) (List.cons_ne_nil f2 fs2), List.append_assoc]
      rfl

/-- Round trip of the writer's full output: parsing what `writeRows`
produces from rows that each have at least one field recovers the rows
exactly. -/
theorem parse_writeRows (rows : List (List (List Char)))
    (h : ∀ r ∈ rows, r ≠ ([] : List (List Char))) :
    parseCSVChars (writeRows rows) = rows := by
  induction rows with
  | nil => rfl
  | cons r rs ih =>
    have hr : r ≠ [] := h r (by simp)
    unfold parseCSVChars at ih ⊢
    rw [writeRows, List.foldr_cons, writeRowChars, List.append_assoc]
    rw [show (['\r', '\n'] : List Char) ++ rs.foldr (fun a acc => writeRowChars a ++ acc) [] =
      '\r' :: '\n' :: rs.foldr (fun a acc => writeRowChars a ++ acc) [] from rfl]
    rw [pRun_row r _ [] hr, List.nil_append]
    rw [show rs.foldr (fun a acc => writeRowChars a ++ acc) [] = writeRows rs from rfl]
    rw [ih (fun x hx => h x (by simp [hx]))]

/-- Behaviour of the co-sponsor probing loop on any page: if the slot
patterns match (with some captures `names`) for every slot from `i` up to
but excluding `j`, and slot `j`'s pattern does not match (when `j` is
still within the probed range 2..19), then the loop collects exactly the
stripped captures of slots `i..j-1` — independent of any slot beyond
`j`. -/
theorem coSponsorsAux_stops (s : List Char) (names : Nat → List Char) :
    ∀ fuel i j : Nat, i + fuel = 20 → i ≤ j → j ≤ 20 →
      (∀ m, i ≤ m → m < j → searchSlot m s = some (names m)) →
      (j ≤ 19 → searchSlot j s = none) →
      coSponsorsAux s fuel i = (slotRange i (j - i)).map (fun m => pyStrip (names m)) := by
  intro fuel
  induction fuel with
  | zero =>
    intro i j h20 hij hj20 _ _
    have hi : i = 20 := by omega
    have hj : j = 20 := by omega
    subst hi; subst hj
    simp [coSponsorsAux, slotRange]
  | succ fuel ih =>
    intro i j h20 hij hj20 hpres habs
    by_cases hlt : i < j
    · have hp : searchSlot i s = some (names i) := hpres i le_rfl hlt
      have hrec := ih (i + 1) j (by omega) (by omega) hj20
        (fun m hm1 hm2 => hpres m (by omega) hm2) habs
      have hji : j - i = (j - (i + 1)) + 1 := by omega
      simp only [coSponsorsAux, hp, hrec, hji, slotRange, List.map_cons]
    · have hij2 : j = i := by omega
      subst hij2
      have ha : searchSlot j s = none := habs (by omega)
      simp [coSponsorsAux, ha, slotRange]

/-- C1 (amended): for every page text whose primary-sponsor pattern
matches and whose co-sponsor patterns for slots 2..k (k at most 19, the
largest slot the source ever probes) match with no gaps — slot k+1 not
matching when k is below 19 — the sponsor extraction of `parse_bill_html`
produces exactly the k stripped captures in slot order; and for every
page with a gap at slot j (2 ≤ j ≤ k ≤ 19), the extracted list contains
exactly the names of slots 1..j-1, regardless of which later slots are
present: probing stops at the first missing slot within the probed
range. -/
theorem c1_sponsor_probing_amended :
    (∀ (s : List Char) (names : Nat → List Char) (k : Nat),
      1 ≤ k → k ≤ 19 →
      searchPrimary s = some (names 1) →
      (∀ i, 2 ≤ i → i ≤ k → searchSlot i s = some (names i)) →
      (k < 19 → searchSlot (k + 1) s = none) →
      sponsorsList s = (slotRange 1 k).map (fun m => pyStrip (names m))) ∧
    (∀ (s : List Char) (names : Nat → List Char) (j k : Nat),
      2 ≤ j → j ≤ k → k ≤ 19 →
      searchPrimary s = some (names 1) →
      (∀ i, 2 ≤ i → i < j → searchSlot i s = some (names i)) →
      searchSlot j s = none →
      sponsorsList s = (slotRange 1 (j - 1)).map (fun m => pyStrip (names m))) := by
  constructor
  · intro s names k hk1 hk19 hp hpres habs
    have h := coSponsorsAux_stops s names 18 2 (k + 1) (by omega) (by omega) (by omega)
      (fun m hm1 hm2 => hpres m hm1 (by omega)) (fun hj => habs (by omega))
    have h2 : k + 1 - 2 = k - 1 := by omega
    have h3 : k = (k - 1) + 1 := by omega
    rw [sponsorsList, hp, coSponsors, h, h2, h3]
    simp [slotRange]
  · intro s names j k hj2 hjk hk19 hp hpres habs
    have h := coSponsorsAux_stops s names 18 2 j (by omega) (by omega) (by omega)
      hpres (fun _ => habs)
    have h3 : j - 1 = (j - 2) + 1 := by omega
    rw [sponsorsList, hp, coSponsors, h, h3]
    simp [slotRange]

/-- Witness for C1 (amended): a gap-free synthetic page with slots 1..3
yields exactly Name1..Name3, and a page with slots 1..7 lacking slot 4
yields exactly Name1..Name3 although slots 5..7 are present. -/
theorem c1_sponsor_probing_amended_witness :
    sponsorsList (noGapPage 3).data = (slotRange 1 3).map (fun m => pyStrip (chars (spName m))) ∧
    sponsorsList (gapPage 4 7).data =
      (slotRange 1 (4 - 1)).map (fun m => pyStrip (chars (spName m))) := by
  constructor
  · exact c1_sponsor_probing_amended.1 (noGapPage 3).data (fun m => chars (spName m)) 3
      (by decide) (by decide) (by decide)
      (fun i h2 h3 => by interval_cases i <;> decide) (fun _ => by decide)
  · exact c1_sponsor_probing_amended.2 (gapPage 4 7).data (fun m => chars (spName m)) 4 7
      (by decide) (by decide) (by decide) (by decide)
      (fun i h2 h3 => by interval_cases i <;> decide) (by decide)

/-- Counterexample to C1 as stated: the gap-free synthetic page with a
primary sponsor and co-sponsor slots 2..20 yields 19 names, not the 20
the claim demands — the source's probing loop never examines a slot
beyond 19. -/
theorem c1_sponsor_probing_counterexample :
    (sponsorsList (noGapPage 20).data).length = 19 ∧ (19 : Nat) ≠ 20 := by
  exact ⟨by decide, by decide⟩

/-- C9: the sponsor list produced by `parse_bill_html` never holds more
than 19 names, on any page whatsoever; and on any page whose primary
sponsor and co-sponsor slots 2..19 all match (in particular a gap-free
page with slots up to any k of at least 20 — nothing about slots 20 and
beyond is assumed), the extracted list is exactly the 19 names of slots
1..19. -/
theorem c9_sponsor_cap :
    (∀ s : List Char, (sponsorsList s).length ≤ 19) ∧
    (∀ (s : List Char) (names : Nat → List Char),
      searchPrimary s = some (names 1) →
      (∀ i, 2 ≤ i → i ≤ 19 → searchSlot i s = some (names i)) →
      sponsorsList s = (slotRange 1 19).map (fun m => pyStrip (names m))) := by
  constructor
  · intro s
    have hco : ∀ fuel i, (coSponsorsAux s fuel i).length ≤ fuel := by
      intro fuel
      induction fuel with
      | zero => intro i; simp [coSponsorsAux]
      | succ fuel ih =>
        intro i
        simp only [coSponsorsAux]
        cases h : searchSlot i s with
        | some cap => simpa using ih (i + 1)
        | none => simp
    have h18 := hco 18 2
    unfold sponsorsList coSponsors
    cases h : searchPrimary s <;> simp <;> omega
  · intro s names hp hpres
    have h := coSponsorsAux_stops s names 18 2 20 (by omega) (by omega) (by omega)
      (fun m hm1 hm2 => hpres m hm1 (by omega)) (fun hj => absurd hj (by omega))
    rw [sponsorsList, hp, coSponsors, h]
    simp [slotRange]

/-- Witness for C9: the gap-free synthetic page with slots up to 21
satisfies the hypotheses, so its extracted sponsor list is exactly
Name1..Name19 — slots 20 and 21 are never examined. -/
theorem c9_sponsor_cap_witness :
    sponsorsList (noGapPage 21).data =
      (slotRange 1 19).map (fun m => pyStrip (chars (spName m))) := by
  exact c9_sponsor_cap.2 (noGapPage 21).data (fun m => chars (spName m))
    (by decide) (fun i h2 h19 => by interval_cases i <;> decide)

/-- C2: any page text containing the substring "not found" in any letter
case — formalized as the lower-cased page containing the marker, which the
character-wise lower-casing makes equivalent — is rejected by
`parse_bill_html`, whatever else the page contains. -/
theorem c2_not_found_rejected (html : String)
    (h : containsSub notFoundLit (lowerChars html.data) = true) :
    parse_bill_html html = none := by
  by_cases hd : html.data = ([] : List Char)
  · simp [parse_bill_html, hd]
  · simp [parse_bill_html, hd, h]

/-- Witness for C2: a page with every field element present but carrying
"Not Found" in mixed case parses to the invalid sentinel. -/
theorem c2_not_found_rejected_witness : parse_bill_html pageNotFound = none :=
  c2_not_found_rejected pageNotFound (by decide)

/-- C3: whenever the title variable of `parse_bill_html` is empty — the
title pattern not matching anywhere, or its capture stripping to nothing —
the page is rejected; consequently every record the function returns has a
non-empty title field. -/
theorem c3_title_mandatory (html : String) :
    (titleOf html.data = ([] : List Char) → parse_bill_html html = none) ∧
    (∀ b, parse_bill_html html = some b → b.title ≠ ([] : List Char)) := by
  constructor
  · intro ht
    by_cases hd : html.data = ([] : List Char)
    · simp [parse_bill_html, hd]
    · by_cases hnf : containsSub notFoundLit (lowerChars html.data) = true
      · simp [parse_bill_html, hd, hnf]
      · simp [parse_bill_html, hd, hnf, ht]
  · intro b hb
    unfold parse_bill_html at hb
    split at hb
    · exact Option.noConfusion hb
    · split at hb
      · exact Option.noConfusion hb
      · split at hb
        · exact Option.noConfusion hb
        · rename_i hne
          injection hb with hb
          rw [← hb]
          exact hne

/-- Witness for C3: a page whose title element captures only whitespace
is rejected. -/
theorem c3_title_mandatory_witness : parse_bill_html pageWsTitle = none :=
  (c3_title_mandatory pageWsTitle).1 (by decide)

/-- C7: `fetch_url` is a total function of the transport outcome — it
cannot propagate an exception — mapping every failure to the no-content
result and every success to the body; and through `scrape_bill` a fetch
failure is an ordinary miss for that identifier. -/
theorem c7_fetch_never_raises :
    (∀ msg, fetch_url (.failure msg) = none) ∧
    (∀ body, fetch_url (.success body) = some body) ∧
    (∀ msg chamber n year, scrape_bill chamber n year (.failure msg) = none) :=
  ⟨fun _ => rfl, fun _ => rfl, fun _ _ _ _ => rfl⟩

/-- C5: in the early-stop scan loop the consecutive-miss counter is reset
to 0 on every hit and incremented by 1 on every miss; the loop halts
exactly when the counter reaches the threshold or the bill number exceeds
the ceiling; and in the spec's scenario — threshold 3, hits only at
positions 1 and 2 — the chamber scan collects positions 1 and 2 and halts
with the bill number at 6, i.e. after examining position 5 = 2 + 3, far
below the ceiling 500. -/
theorem c5_early_stop :
    (∀ (hit : Nat → Bool) (c t fuel n m : Nat), n ≤ c → m < t → hit n = true →
      scanAux hit c t (fuel + 1) n m =
        (n :: (scanAux hit c t fuel (n + 1) 0).1, (scanAux hit c t fuel (n + 1) 0).2)) ∧
    (∀ (hit : Nat → Bool) (c t fuel n m : Nat), n ≤ c → m < t → hit n = false →
      scanAux hit c t (fuel + 1) n m = scanAux hit c t fuel (n + 1) (m + 1)) ∧
    (∀ (hit : Nat → Bool) (c t fuel n m : Nat), t ≤ m ∨ c < n →
      scanAux hit c t fuel n m = ([], n)) ∧
    (scanChamber hitTwo 500 3 = ([1, 2], 6) ∧ 6 - 1 < 500) := by
  refine ⟨?_, ?_, ?_, by decide, by decide⟩
  · intro hit c t fuel n m h1 h2 h3
    simp only [scanAux]
    rw [if_pos ⟨h1, h2⟩, if_pos h3]
  · intro hit c t fuel n m h1 h2 h3
    simp only [scanAux]
    rw [if_pos ⟨h1, h2⟩, if_neg (by simp [h3])]
  · intro hit c t fuel n m h
    cases fuel with
    | zero => rfl
    | succ fuel =>
      simp only [scanAux]
      rw [if_neg (by omega)]

/-- Witness for C5: the step equations applied at concrete states — a hit
at position 1 resets the counter, a miss at position 3 increments it, and
a counter at the threshold halts the loop at once. -/
theorem c5_early_stop_witness :
    scanAux hitTwo 500 3 10 1 0 =
      (1 :: (scanAux hitTwo 500 3 9 2 0).1, (scanAux hitTwo 500 3 9 2 0).2) ∧
    scanAux hitTwo 500 3 8 3 1 = scanAux hitTwo 500 3 7 4 2 ∧
    scanAux hitTwo 500 3 7 6 3 = ([], 6) :=
  ⟨c5_early_stop.1 hitTwo 500 3 9 1 0 (by decide) (by decide) (by decide),
    c5_early_stop.2.1 hitTwo 500 3 7 3 1 (by decide) (by decide) (by decide),
    c5_early_stop.2.2.1 hitTwo 500 3 7 6 3 (Or.inl (by decide))⟩

/-- C6: the writer/reader round trip — parsing the serialized form of any
seven-field row reproduces the seven field strings exactly; the Sponsors
column is the sponsor names joined with the fixed separator in page order
(an empty sponsor list serializing to the empty string); and the record
of a synthetic three-sponsor page carries exactly that join. -/
theorem c6_roundtrip :
    (∀ a b c d e f g : List Char,
      parseCSVChars (writeRowChars [a, b, c, d, e, f, g]) = [[a, b, c, d, e, f, g]]) ∧
    joinSemicolon [] = ([] : List Char) ∧
    (∀ l, l ≠ ([] : List (List Char)) → joinSemicolon l = List.intercalate (chars "; ") l) ∧
    (parse_bill_html (noGapPage 3)).map BillData.sponsors =
      some (chars "Name1; Name2; Name3") := by
  refine ⟨?_, rfl, ?_, by decide⟩
  · intro a b c d e f g
    have h := parse_writeRows [[a, b, c, d, e, f, g]]
      (by intro r hr; simp at hr; subst hr; exact List.cons_ne_nil _ _)
    rw [writeRows, List.foldr_cons, List.foldr_nil, List.append_nil] at h
    exact h
  · intro l hl
    rw [joinSemicolon, if_neg hl]

/-- Witness for C6: the round trip applied to a concrete row whose fields
hold commas, quotes and an empty string, and the join equation applied to
a concrete two-name list. -/
theorem c6_roundtrip_witness :
    parseCSVChars (writeRowChars
      [chars "x,y", chars "q\"q", ([] : List Char), chars "z", [], [], chars "w"]) =
      [[chars "x,y", chars "q\"q", ([] : List Char), chars "z", [], [], chars "w"]] ∧
    joinSemicolon [chars "A", chars "B"] = List.intercalate (chars "; ") [chars "A", chars "B"] :=
  ⟨c6_roundtrip.1 (chars "x,y") (chars "q\"q") [] (chars "z") [] [] (chars "w"),
    c6_roundtrip.2.2.1 [chars "A", chars "B"] (by decide)⟩

/-- C8: an empty collection produces the no-results status and nothing
else does; every written file has the fixed name `bills.csv`; and parsing
a written file yields the header row derived from the record fields
followed by one row per record in collection order. -/
theorem c8_writer :
    saveResults [] = SaveOutcome.noResults ∧
    (∀ bills, saveResults bills = SaveOutcome.noResults → bills = []) ∧
    (∀ bills fn content, saveResults bills = SaveOutcome.written fn content →
      fn = "bills.csv" ∧ parseCSVChars content = headerFields :: bills.map rowFields) := by
  refine ⟨rfl, ?_, ?_⟩
  · intro bills h
    cases bills with
    | nil => rfl
    | cons b bs => exact SaveOutcome.noConfusion (h.symm.trans rfl)
  · intro bills fn content h
    cases bills with
    | nil => exact SaveOutcome.noConfusion h
    | cons b bs =>
      rw [saveResults] at h
      injection h with h1 h2
      subst h1; subst h2
      refine ⟨rfl, ?_⟩
      refine parse_writeRows _ ?_
      intro r hr
      rcases List.mem_cons.mp hr with hr | hr
      · rw [hr]
        exact List.cons_ne_nil _ _
      · simp only [List.mem_map] at hr
        obtain ⟨x, _, hx⟩ := hr
        rw [← hx, rowFields]
        exact List.cons_ne_nil _ _

/-- Witness for C8: the writer applied to a one-record collection whose
fields hold delimiters and quotes — the written content parses back to
the header row followed by that record's fields. -/
theorem c8_writer_witness :
    ("bills.csv" : String) = "bills.csv" ∧
    parseCSVChars (writeRows (headerFields :: [sampleRow].map rowFields)) =
      headerFields :: [sampleRow].map rowFields :=
  c8_writer.2.2 [sampleRow] "bills.csv"
    (writeRows (headerFields :: [sampleRow].map rowFields)) rfl

/-- C4 (amended): on a page with a single matching actions table whose
data rows are out of chronological order, the extracted last action is
the row appearing last in document order — not the chronologically latest
one — with the date from its first cell and the status from its second
cell; and when the chosen entry's second cell is absent and no earlier
qualifying table set the field, the status is the empty string. -/
theorem c4_last_action_amended :
    (parse_bill_html pageOutOfOrder).map (fun b => (b.last_date, b.status)) =
      some (chars "01/15/2026", chars "Introduced") ∧
    (parse_bill_html pageOneCellRow).map (fun b => (b.last_date, b.status)) =
      some (chars "03/01/2026", ([] : List Char)) :=
  ⟨by decide, by decide⟩

/-- Counterexample to C4 as stated: on a page whose document-last action
entry (in a second qualifying table) has a date cell but no status cell,
the returned status is not the empty string the claim requires — it is
the status left over from the earlier table, so the status does not come
from the entry appearing last in the document. -/
theorem c4_last_action_counterexample :
    (parse_bill_html pageCarryOverStatus).map (fun b => (b.last_date, b.status)) =
      some (chars "02/02/2026", chars "Passed") ∧
    chars "Passed" ≠ ([] : List Char) :=
  ⟨by decide, by decide⟩

/-- C10 (amended): a matching table with fewer than two rows contributes
nothing — a page whose only matching table has a single row yields empty
date and status even though the row holds action data; among qualifying
tables the later one overwrites the earlier; but a qualifying table whose
last row has no cells also contributes nothing, so the returned values
can come from an earlier qualifying table. -/
theorem c10_table_selection_amended :
    (parse_bill_html pageSingleRowTable).map (fun b => (b.last_date, b.status)) =
      some (([] : List Char), ([] : List Char)) ∧
    (parse_bill_html pageTwoFullTables).map (fun b => (b.last_date, b.status)) =
      some (chars "01/20/2026", chars "Second") ∧
    (parse_bill_html pageCarryOverBoth).map (fun b => (b.last_date, b.status)) =
      some (chars "01/01/2026", chars "Passed") :=
  ⟨by decide, by decide, by decide⟩

/-- Counterexample to C10 as stated: on a page with two qualifying
tables where the last one's last row has no cells, the returned date and
status are those of the first table, not values from the last table with
at least two rows as the claim requires. -/
theorem c10_table_selection_counterexample :
    (parse_bill_html pageCarryOverBoth).map (fun b => (b.last_date, b.status)) =
      some (chars "01/01/2026", chars "Passed") ∧
    (chars "01/01/2026", chars "Passed") ≠ (([] : List Char), ([] : List Char)) ∧
    containsSub (chars "01/01/2026")
        (chars (actTable (actHeaderRow ++ "<tr>no cells here</tr>"))) = false :=
  ⟨by decide, by decide, by decide⟩

end BillTracker
